import Mathlib

/-!
# Verification of the infipod schema-reconciliation and row-accessor layer

Shallow embedding of the repository's core logic:

* `src/infipod/schema.py` — the declarative table/column descriptor model
  (`Column.__set_name__`, `TableSchema.all_columns`, `column_mapping`);
* `src/infipod/engine.py` — `EnhancedRow.__getitem__` / `EnhancedRow.get`
  (typed row access), `create_table_schemas` and its inner
  `backfill_table_data` (schema reconciliation under strict/lenient policy);
* `src/infipod/util.py` — `map_as_completed` (the concurrent fan-out whose
  task-group failure semantics aggregate every raised error).

Python identity of a table class (`type[TableSchema]`) is modelled as a `Nat`
tag; machine-level details (wire protocol, async I/O, logging) are outside the
embedding.  Dicts are modelled as association lists with overwrite-on-insert,
which matches Python `dict` lookup/assignment for the uses in this code.
Values held in rows are a type parameter `V`; `Option V` models a possibly-NULL
cell (`none` = SQL NULL / Python `None`).
-/

namespace Infipod

/-- A schema-bound column descriptor as the engine sees it
(`infipod.schema.Column` after `__set_name__` ran): the identity of the owning
`TableSchema` subclass (`owner`, a Python class modelled by a `Nat` tag) and
the column `name`.  attrs value equality on `Column` restricted to the fields
the engine consults; the `type` field never influences lookup and, within one
table, columns are keyed by their unique names. -/
structure Column where
  owner : Nat
  name : String
deriving DecidableEq, Repr

/-- One entry of a query result description
(`pg_purepy` column description): the originating table's object id, the
column's ordinal (`attnum`) and the column label.  `EnhancedRow.__getitem__`
compares only `table_oid` and `column_index`; the label is carried to state
that lookups ignore it. -/
structure ColumnDesc where
  table_oid : Nat
  column_index : Int
  label : String
deriving DecidableEq, Repr

/-- One cell of a fetched row: its description entry plus the (possibly NULL)
value.  `engine.py` keeps `row.description.columns` and `row.data` as two
parallel sequences of equal length (a driver invariant); the embedding zips
them. -/
structure RowEntry (V : Type) where
  desc : ColumnDesc
  value : Option V
deriving DecidableEq, Repr

/-- A fetched data row (the state wrapped by `EnhancedRow`). -/
abbrev Row (V : Type) := List (RowEntry V)

/-- The raw value sequence of a row (`self._row.data`). -/
def rowData {V : Type} (row : Row V) : List (Option V) :=
  row.map (fun e => e.value)

/-- A reconciled per-table schema (`infipod.schema.TableSchema` instance):
the table's runtime `oid` and the dict `column_mapping : Column -> attnum`,
modelled as an association list. -/
structure TableSchema where
  oid : Nat
  column_mapping : List (Column × Int)
deriving DecidableEq, Repr

/-- The engine's `SchemaMapping` (`Mapping[type[TableSchema], TableSchema]`),
keyed by the table class identity tag. -/
abbrev SchemaMapping := List (Nat × TableSchema)

/-- Python dict lookup `self._engine._schemas[table_type]` on the modelled
association list. -/
def lookupSchema (schemas : SchemaMapping) (owner : Nat) : Option TableSchema :=
  (schemas.find? (fun p => p.1 == owner)).map (fun p => p.2)

/-- Python dict lookup `table_instance.column_mapping[key]`. -/
def mappingLookup (m : List (Column × Int)) (c : Column) : Option Int :=
  (m.find? (fun p => p.1 == c)).map (fun p => p.2)

/-- Python dict assignment `schema.column_mapping[column] = attnum`:
overwrite the binding if the key is present, else append. -/
def mappingInsert : List (Column × Int) → Column → Int → List (Column × Int)
  | [], c, v => [(c, v)]
  | p :: rest, c, v =>
      if p.1 == c then (c, v) :: rest else p :: mappingInsert rest c v

/-- The failures `EnhancedRow.__getitem__` can raise.  In Python the first
four are `KeyError` (raised at four distinct program points, with distinct
messages) and `indexOutOfBounds` is `IndexError` from raw list indexing. -/
inductive LookupError where
  /-- `IndexError` from `self._row.data[key]` with an out-of-range int. -/
  | indexOutOfBounds
  /-- `KeyError` from `self._engine._schemas[table_type]`: the descriptor's
  owner table was never reconciled into the schema map. -/
  | schemaMapMiss (owner : Nat)
  /-- `KeyError` from `table_instance.column_mapping[key]`: the column was
  never assigned an ordinal (a lenient-policy skip). -/
  | columnMappingMiss (name : String)
  /-- `KeyError "Column ... has a NULL value"`. -/
  | nullValue (name : String)
  /-- `KeyError "No such column ... in this row"`. -/
  | columnNotInRow (name : String)
deriving DecidableEq, Repr

/-- Whether the raised Python exception is a `KeyError` (the class that
`EnhancedRow.get` catches); `IndexError` is not. -/
def LookupError.isKeyError : LookupError → Bool
  | .indexOutOfBounds => false
  | _ => true

/-- The scan loop of `EnhancedRow.__getitem__`: walk the description entries
in order; at the first entry whose `(table_oid, column_index)` equals the
resolved pair, return its value — raising `NullValue` if that value is NULL —
and if no entry matches, raise `ColumnNotInRow`. -/
def scanColumns {V : Type} (oid : Nat) (cidx : Int) (name : String) :
    Row V → Except LookupError V
  | [] => .error (.columnNotInRow name)
  | e :: rest =>
      if e.desc.table_oid == oid && e.desc.column_index == cidx then
        match e.value with
        | none => .error (.nullValue name)
        | some v => .ok v
      else scanColumns oid cidx name rest

/-- `EnhancedRow.__getitem__` with a `Column` key: resolve the owner table in
the schema map, resolve the column's ordinal in that table's
`column_mapping`, then scan the row. -/
def getitemCol {V : Type} (schemas : SchemaMapping) (row : Row V) (key : Column) :
    Except LookupError V :=
  match lookupSchema schemas key.owner with
  | none => .error (.schemaMapMiss key.owner)
  | some inst =>
      match mappingLookup inst.column_mapping key with
      | none => .error (.columnMappingMiss key.name)
      | some cidx => scanColumns inst.oid cidx key.name row

/-- Python list indexing semantics for `data[i]`: non-negative indices from
the front, negative indices wrap from the back, anything else is
`IndexError` (`none` here). -/
def pyListIndex {α : Type} (xs : List α) (i : Int) : Option α :=
  if 0 ≤ i then xs.get? i.toNat
  else if 0 ≤ (xs.length : Int) + i then xs.get? ((xs.length : Int) + i).toNat
  else none

/-- `EnhancedRow.__getitem__` with an `int` key: raw positional access into
`self._row.data`. -/
def getitemIdx {V : Type} (row : Row V) (i : Int) : Except LookupError (Option V) :=
  match pyListIndex (rowData row) i with
  | some v => .ok v
  | none => .error .indexOutOfBounds

/-- The key of a row lookup: a raw `int` index or a `Column` descriptor
(the two overloads of `EnhancedRow.__getitem__`). -/
inductive RowKey where
  | idx (i : Int)
  | col (c : Column)
deriving DecidableEq, Repr

/-- `EnhancedRow.__getitem__`, both overloads.  The result is the raw cell
value for an index key (possibly `none` = NULL) and the necessarily non-NULL
value for a descriptor key. -/
def getitem {V : Type} (schemas : SchemaMapping) (row : Row V) (k : RowKey) :
    Except LookupError (Option V) :=
  match k with
  | .idx i => getitemIdx row i
  | .col c => (getitemCol schemas row c).map some

/-- `EnhancedRow.get`: `try: return self[key] except KeyError: return None`.
A `KeyError` becomes an absent (`none`) result; any other exception —
`IndexError` in particular — propagates. -/
def EnhancedRow.get {V : Type} (schemas : SchemaMapping) (row : Row V) (k : RowKey) :
    Except LookupError (Option V) :=
  match getitem schemas row k with
  | .ok v => .ok v
  | .error e => if e.isKeyError then .ok none else .error e

/-! ## Descriptor binding (`schema.py`, `Column.__set_name__`) -/

/-- The binding-time state of a declared column (`infipod.schema.Column`
before/after `__set_name__`): the semantic type tag, the owner slot —
`none` models the attrs `init=False` slot being unset, so that reading it
raises `AttributeError` — and the name, where the empty string models the
falsy default that `__set_name__` replaces by the attribute name. -/
structure ColumnState where
  ctype : String
  owner : Option Nat
  name : String
deriving DecidableEq, Repr

/-- The class a column ends up declared on: a `TableSchema` subclass
(identified by its tag) or any other class. -/
inductive OwnerClass where
  | tableClass (id : Nat)
  | otherClass
deriving DecidableEq, Repr

/-- The `TypeError` that `Column.__set_name__` raises for a
non-`TableSchema` owner. -/
inductive BindError where
  | typeError
deriving DecidableEq, Repr

/-- The `AttributeError` raised by reading an attrs `init=False` slot that
was never assigned. -/
inductive AccessError where
  | attributeError
deriving DecidableEq, Repr

/-- `Column.__set_name__(owner, name)`: raise `TypeError` unless the owner is
a `TableSchema` subclass; otherwise `object.__setattr__` the owner slot
(unconditionally — no already-bound check) and set the name only if it is
still falsy. -/
def setName (c : ColumnState) (owner : OwnerClass) (attr : String) :
    Except BindError ColumnState :=
  match owner with
  | .otherClass => .error .typeError
  | .tableClass tid =>
      .ok { c with owner := some tid,
                   name := if c.name = "" then attr else c.name }

/-- Reading `column.owner`: `AttributeError` when the slot was never set. -/
def getOwner (c : ColumnState) : Except AccessError Nat :=
  match c.owner with
  | none => .error .attributeError
  | some t => .ok t

/-! ## Schema reconciliation (`engine.py`, `create_table_schemas`) -/

/-- A declared table class (`type[TableSchema]`): its identity tag, its
`table_name`, and `all_columns` — the values of the name-keyed dict the
metaclass collects from the class body (names unique by construction, the
dict being keyed by them). -/
structure TableSchemaType where
  id : Nat
  table_name : String
  all_columns : List Column
deriving DecidableEq, Repr

/-- Python `table.all_columns.get(column_name)`: lookup by column name. -/
def allColumnsGet (t : TableSchemaType) (cname : String) : Option Column :=
  t.all_columns.find? (fun c => c.name == cname)

/-- One row of the `pg_attribute` catalog query for a table: the column's
name and its ordinal (`attnum`, positive for user columns). -/
structure CatalogColumn where
  attname : String
  attnum : Int
deriving DecidableEq, Repr

/-- The server catalog state the reconciler queries: `relOid` answers the
`pg_class` query (`oid` of the ordinary relation with a given `relname`,
`none` = `MissingRowError`), `attributeRows` answers the `pg_attribute`
query for a given table oid (user columns, ascending `attnum`). -/
structure Catalog where
  relOid : String → Option Nat
  attributeRows : Nat → List CatalogColumn

/-- The `SchemaLoadFailedError`s of `create_table_schemas`, by the message
each program point formats. -/
inductive LoadError where
  /-- `Unknown table {name}` — the `pg_class` query found no row. -/
  | unknownTable (table : String)
  /-- `Missing column in schema: {table}.{column}` — the server reported a
  column the declaration does not have. -/
  | missingColumnInSchema (table : String) (column : String)
  /-- `Unmapped columns: {names}` — declared columns the server never
  reported. -/
  | unmappedColumns (names : List String)
deriving DecidableEq, Repr

/-- The per-catalog-row loop of `backfill_table_data`: for each returned
column row, look the name up in `all_columns`; a miss raises
`Missing column in schema` under strict policy and is skipped (after a
warning) under lenient policy; a hit records descriptor → `attnum` in the
column mapping. -/
def processColumnRows (strict : Bool) (t : TableSchemaType) :
    List CatalogColumn → List (Column × Int) → Except LoadError (List (Column × Int))
  | [], acc => .ok acc
  | r :: rest, acc =>
      match allColumnsGet t r.attname with
      | none =>
          if strict then .error (.missingColumnInSchema t.table_name r.attname)
          else processColumnRows strict t rest acc
      | some c => processColumnRows strict t rest (mappingInsert acc c r.attnum)

/-- The strict-policy set difference
`set(table.all_columns.values()).difference(schema.column_mapping.keys())`:
the declared columns with no recorded ordinal (in declaration order; the
Python set's iteration order is arbitrary, only membership is relied on). -/
def unmappedColumnsOf (t : TableSchemaType) (m : List (Column × Int)) : List Column :=
  t.all_columns.filter (fun c => (mappingLookup m c).isNone)

/-- `backfill_table_data(table)`: resolve the table's oid (strict failure
`unknownTable` / lenient `None` when absent), fold the catalog column rows
into the column mapping, and under strict policy fail with
`unmappedColumns` if any declared column is left unmapped; otherwise return
the reconciled schema. -/
def backfill_table_data (cat : Catalog) (strict : Bool) (t : TableSchemaType) :
    Except LoadError (Option TableSchema) :=
  match cat.relOid t.table_name with
  | none =>
      if strict then .error (.unknownTable t.table_name) else .ok none
  | some oid =>
      match processColumnRows strict t (cat.attributeRows oid) [] with
      | .error e => .error e
      | .ok m =>
          if strict && !(unmappedColumnsOf t m).isEmpty then
            .error (.unmappedColumns ((unmappedColumnsOf t m).map Column.name))
          else .ok (some { oid := oid, column_mapping := m })

/-- The failures among a list of task outcomes, in completion order. -/
def errorsOf {ε α : Type} (outcomes : List (Except ε α)) : List ε :=
  outcomes.filterMap (fun o => match o with | .error e => some e | .ok _ => none)

/-- The successful results among a list of task outcomes. -/
def oksOf {ε α : Type} (outcomes : List (Except ε α)) : List α :=
  outcomes.filterMap (fun o => match o with | .ok a => some a | .error _ => none)

/-- `util.map_as_completed(inputs, fn)` run inside an anyio task group, for
one execution: `inputs` lists the tasks that ran to an outcome, in completion
order (the scheduler chooses the order and, after a failure triggers
cancellation, the cut-off; theorems quantify over every such list).  If any
task raised, the task group raises an `ExceptionGroup` carrying every
exception that occurred — cancelled siblings contribute nothing — and the
result deque is discarded; otherwise every task completed and the results are
returned in completion order. -/
def map_as_completed {ε α β : Type} (inputs : List α) (f : α → Except ε β) :
    Except (List ε) (List β) :=
  match errorsOf (inputs.map f) with
  | [] => .ok (oksOf (inputs.map f))
  | errs => .error errs

/-- One reconciliation task as spawned by `create_table_schemas`: the
backfill outcome together with the identity of the table class it was run
for (in Python the class is recovered afterwards as `type(it)`; the model
pairs it up front because the schema instance does not carry it). -/
def backfillTask (cat : Catalog) (strict : Bool) (t : TableSchemaType) :
    Except LoadError (Option (Nat × TableSchema)) :=
  (backfill_table_data cat strict t).map (fun s => s.map (fun v => (t.id, v)))

/-- `create_table_schemas(conn, schema_types, strict)`, up to the schema map
(the converter pass touches no claim): fan the per-table backfill out with
`map_as_completed`, drop the `None` results of lenient misses, and key the
surviving schemas by their table class (`{type(it): it for it in schemas}`). -/
def create_table_schemas (cat : Catalog) (strict : Bool)
    (tables : List TableSchemaType) : Except (List LoadError) SchemaMapping :=
  match map_as_completed tables (backfillTask cat strict) with
  | .error errs => .error errs
  | .ok results => .ok (results.filterMap id)

/-! ## Helper lemmas -/

/-- The match test of the `__getitem__` scan loop, as a predicate. -/
def entryMatches {V : Type} (oid : Nat) (cidx : Int) (e : RowEntry V) : Bool :=
  e.desc.table_oid == oid && e.desc.column_index == cidx

theorem scanColumns_eq_find {V : Type} (oid : Nat) (cidx : Int) (name : String)
    (row : Row V) :
    scanColumns oid cidx name row =
      match row.find? (entryMatches oid cidx) with
      | none => .error (.columnNotInRow name)
      | some e =>
          match e.value with
          | none => .error (.nullValue name)
          | some v => .ok v := by
  induction row with
  | nil => rfl
  | cons e rest ih =>
      by_cases h : (e.desc.table_oid == oid && e.desc.column_index == cidx) = true
      · rw [List.find?_cons_of_pos _ (show entryMatches oid cidx e = true from h)]
        simp only [scanColumns, if_pos h]
      · rw [List.find?_cons_of_neg _ (show ¬entryMatches oid cidx e = true from h)]
        simp only [scanColumns, if_neg h, ih]

theorem mem_oksOf {ε α : Type} (os : List (Except ε α)) (a : α) :
    a ∈ oksOf os ↔ Except.ok a ∈ os := by
  unfold oksOf
  rw [List.mem_filterMap]
  constructor
  · rintro ⟨o, ho, h⟩
    cases o with
    | ok x => simp only [Option.some.injEq] at h; subst h; exact ho
    | error e => simp at h
  · intro h
    exact ⟨.ok a, h, rfl⟩

theorem mem_errorsOf {ε α : Type} (os : List (Except ε α)) (e : ε) :
    e ∈ errorsOf os ↔ Except.error e ∈ os := by
  unfold errorsOf
  rw [List.mem_filterMap]
  constructor
  · rintro ⟨o, ho, h⟩
    cases o with
    | ok x => simp at h
    | error e => simp only [Option.some.injEq] at h; subst h; exact ho
  · intro h
    exact ⟨.error e, h, rfl⟩

theorem errorsOf_eq_nil_iff {ε α : Type} (os : List (Except ε α)) :
    errorsOf os = [] ↔ ∀ e : ε, Except.error e ∉ os := by
  constructor
  · intro h e he
    have : e ∈ errorsOf os := (mem_errorsOf os e).mpr he
    rw [h] at this
    exact absurd this (List.not_mem_nil e)
  · intro h
    by_contra hne
    match hm : errorsOf os with
    | [] => exact hne hm
    | e :: rest =>
        have : e ∈ errorsOf os := by rw [hm]; exact List.mem_cons_self e rest
        exact h e ((mem_errorsOf os e).mp this)

theorem except_map_eq_ok {ε α β : Type} (f : α → β) (o : Except ε α) (b : β) :
    Except.map f o = .ok b ↔ ∃ a, o = .ok a ∧ b = f a := by
  cases o <;> simp [Except.map, eq_comm]

theorem except_map_eq_error {ε α β : Type} (f : α → β) (o : Except ε α) (e : ε) :
    Except.map f o = .error e ↔ o = .error e := by
  cases o <;> simp [Except.map]

theorem lenient_processColumnRows_ok (t : TableSchemaType)
    (rows : List CatalogColumn) (acc : List (Column × Int)) :
    ∃ m, processColumnRows false t rows acc = .ok m := by
  induction rows generalizing acc with
  | nil => exact ⟨acc, rfl⟩
  | cons r rest ih =>
      unfold processColumnRows
      cases allColumnsGet t r.attname with
      | none => simpa using ih acc
      | some c => simpa using ih (mappingInsert acc c r.attnum)

/-- Lenient reconciliation of one table never raises: it yields a schema or,
for a table absent server-side, no schema. -/
theorem backfill_lenient_ok (cat : Catalog) (t : TableSchemaType) :
    ∃ r, backfill_table_data cat false t = .ok r := by
  unfold backfill_table_data
  cases cat.relOid t.table_name with
  | none => exact ⟨none, rfl⟩
  | some oid =>
      obtain ⟨m, hm⟩ := lenient_processColumnRows_ok t (cat.attributeRows oid) []
      simp only [hm]
      exact ⟨some { oid := oid, column_mapping := m }, rfl⟩

theorem scanColumns_relabel {V : Type} (oid : Nat) (cidx : Int) (name : String)
    (f : String → String) (row : Row V) :
    scanColumns oid cidx name
        (row.map (fun e => { e with desc := { e.desc with label := f e.desc.label } }))
      = scanColumns oid cidx name row := by
  induction row with
  | nil => rfl
  | cons e rest ih =>
      by_cases h : (e.desc.table_oid == oid && e.desc.column_index == cidx) = true
      · simp only [List.map_cons, scanColumns, if_pos h]
      · simp only [List.map_cons, scanColumns, if_neg h, ih]

theorem find?_perm_of_uniq {V : Type} (p : RowEntry V → Bool) (r1 r2 : Row V)
    (hperm : r1.Perm r2)
    (huniq : ∀ e1, e1 ∈ r1 → ∀ e2, e2 ∈ r1 → p e1 = true → p e2 = true → e1 = e2) :
    r1.find? p = r2.find? p := by
  cases h1 : r1.find? p with
  | none =>
      have hall : ∀ x ∈ r1, ¬p x := List.find?_eq_none.mp h1
      symm
      exact List.find?_eq_none.mpr (fun x hx => hall x (hperm.mem_iff.mpr hx))
  | some e =>
      have hpe : p e = true := List.find?_some h1
      have hmem1 : e ∈ r1 := List.mem_of_find?_eq_some h1
      have hsome2 : (r2.find? p).isSome :=
        List.find?_isSome.mpr ⟨e, hperm.mem_iff.mp hmem1, hpe⟩
      obtain ⟨e2, h2⟩ := Option.isSome_iff_exists.mp hsome2
      have hpe2 : p e2 = true := List.find?_some h2
      have hmem2 : e2 ∈ r1 := hperm.mem_iff.mpr (List.mem_of_find?_eq_some h2)
      rw [h2, huniq e hmem1 e2 hmem2 hpe hpe2]

theorem getitemCol_schemaMiss {V : Type} (schemas : SchemaMapping) (row : Row V)
    (key : Column) (hs : lookupSchema schemas key.owner = none) :
    getitemCol schemas row key = .error (.schemaMapMiss key.owner) := by
  unfold getitemCol
  simp only [hs]

theorem getitemCol_mappingMiss {V : Type} (schemas : SchemaMapping) (row : Row V)
    (key : Column) (inst : TableSchema)
    (hs : lookupSchema schemas key.owner = some inst)
    (hc : mappingLookup inst.column_mapping key = none) :
    getitemCol schemas row key = .error (.columnMappingMiss key.name) := by
  unfold getitemCol
  simp only [hs, hc]

theorem getitemCol_resolved {V : Type} (schemas : SchemaMapping) (row : Row V)
    (key : Column) (inst : TableSchema) (cidx : Int)
    (hs : lookupSchema schemas key.owner = some inst)
    (hc : mappingLookup inst.column_mapping key = some cidx) :
    getitemCol schemas row key = scanColumns inst.oid cidx key.name row := by
  unfold getitemCol
  simp only [hs, hc]

/-! ## The claims -/

/-- C4: for every row and descriptor lookup, a value is returned only from a
row entry whose metadata matches both the descriptor's table's runtime object
id and the descriptor's assigned ordinal; the entry labels (column names in
the result description) are never consulted, so a name match alone — or a
match on only one of the two identifiers — never yields a value. -/
theorem lookup_requires_both_identifiers {V : Type} (schemas : SchemaMapping)
    (row : Row V) (key : Column) :
    (∀ v, getitemCol schemas row key = .ok v →
      ∃ inst, lookupSchema schemas key.owner = some inst ∧
        ∃ cidx, mappingLookup inst.column_mapping key = some cidx ∧
          ∃ e, e ∈ row ∧ e.desc.table_oid = inst.oid ∧
            e.desc.column_index = cidx ∧ e.value = some v) ∧
    (∀ f : String → String,
      getitemCol schemas
          (row.map (fun e => { e with desc := { e.desc with label := f e.desc.label } })) key
        = getitemCol schemas row key) := by
  constructor
  · intro v hv
    cases hs : lookupSchema schemas key.owner with
    | none => rw [getitemCol_schemaMiss schemas row key hs] at hv; exact absurd hv (by simp)
    | some inst =>
        cases hc : mappingLookup inst.column_mapping key with
        | none =>
            rw [getitemCol_mappingMiss schemas row key inst hs hc] at hv
            exact absurd hv (by simp)
        | some cidx =>
            rw [getitemCol_resolved schemas row key inst cidx hs hc,
              scanColumns_eq_find] at hv
            refine ⟨inst, rfl, cidx, hc, ?_⟩
            cases hf : row.find? (entryMatches inst.oid cidx) with
            | none => rw [hf] at hv; exact absurd hv (by simp)
            | some e =>
                rw [hf] at hv
                have hpe := List.find?_some hf
                have hmem := List.mem_of_find?_eq_some hf
                unfold entryMatches at hpe
                rw [Bool.and_eq_true, beq_iff_eq, beq_iff_eq] at hpe
                refine ⟨e, hmem, hpe.1, hpe.2, ?_⟩
                cases he : e.value with
                | none => simp only [he] at hv; exact absurd hv (by simp)
                | some w =>
                    simp only [he, Except.ok.injEq] at hv
                    rw [hv]
  · intro f
    cases hs : lookupSchema schemas key.owner with
    | none =>
        rw [getitemCol_schemaMiss schemas row key hs,
          getitemCol_schemaMiss schemas _ key hs]
    | some inst =>
        cases hc : mappingLookup inst.column_mapping key with
        | none =>
            rw [getitemCol_mappingMiss schemas row key inst hs hc,
              getitemCol_mappingMiss schemas _ key inst hs hc]
        | some cidx =>
            rw [getitemCol_resolved schemas row key inst cidx hs hc,
              getitemCol_resolved schemas _ key inst cidx hs hc]
            exact scanColumns_relabel inst.oid cidx key.name f row

/-- C6: with the descriptor's owner resolved in the schema map and its
ordinal assigned, and each (table oid, ordinal) pair occurring at most once
in the row: a matching entry holding NULL makes the lookup raise
`NullValue`, no matching entry makes it raise `ColumnNotInRow`, and the two
conditions are distinct errors. -/
theorem null_distinct_from_not_in_row {V : Type} (schemas : SchemaMapping)
    (row : Row V) (key : Column) (inst : TableSchema) (cidx : Int)
    (hs : lookupSchema schemas key.owner = some inst)
    (hc : mappingLookup inst.column_mapping key = some cidx)
    (huniq : ∀ e1, e1 ∈ row → ∀ e2, e2 ∈ row →
      entryMatches inst.oid cidx e1 = true → entryMatches inst.oid cidx e2 = true →
        e1 = e2) :
    ((∃ e, e ∈ row ∧ entryMatches inst.oid cidx e = true ∧ e.value = none) →
        getitemCol schemas row key = .error (.nullValue key.name)) ∧
    ((∀ e, e ∈ row → ¬entryMatches inst.oid cidx e = true) →
        getitemCol schemas row key = .error (.columnNotInRow key.name)) ∧
    (∀ n1 n2 : String, LookupError.nullValue n1 ≠ LookupError.columnNotInRow n2) := by
  have hbase : getitemCol schemas row key =
      scanColumns inst.oid cidx key.name row :=
    getitemCol_resolved schemas row key inst cidx hs hc
  refine ⟨?_, ?_, ?_⟩
  · rintro ⟨e, hmem, hpe, hnull⟩
    rw [hbase, scanColumns_eq_find]
    have hsome : (row.find? (entryMatches inst.oid cidx)).isSome :=
      List.find?_isSome.mpr ⟨e, hmem, hpe⟩
    obtain ⟨e2, h2⟩ := Option.isSome_iff_exists.mp hsome
    have heq : e2 = e :=
      huniq e2 (List.mem_of_find?_eq_some h2) e hmem (List.find?_some h2) hpe
    rw [h2, heq]
    simp only [hnull]
  · intro hnone
    rw [hbase, scanColumns_eq_find, List.find?_eq_none.mpr hnone]
  · intro n1 n2 h
    exact absurd h (by simp)

/-- C8: descriptor lookup is independent of select order: on two rows whose
entries are permutations of each other, with each (table oid, ordinal) pair
occurring at most once, every descriptor lookup yields the same result in
both rows, and a matching entry holding a value makes the lookup return
exactly that value. -/
theorem lookup_select_order_invariant {V : Type} (schemas : SchemaMapping)
    (r1 r2 : Row V) (key : Column)
    (hperm : r1.Perm r2)
    (huniq : ∀ e1, e1 ∈ r1 → ∀ e2, e2 ∈ r1 →
      e1.desc.table_oid = e2.desc.table_oid →
        e1.desc.column_index = e2.desc.column_index → e1 = e2) :
    getitemCol schemas r1 key = getitemCol schemas r2 key ∧
    (∀ inst cidx, lookupSchema schemas key.owner = some inst →
      mappingLookup inst.column_mapping key = some cidx →
      ∀ e, e ∈ r1 → entryMatches inst.oid cidx e = true →
        ∀ v, e.value = some v → getitemCol schemas r1 key = .ok v) := by
  have hpu : ∀ (oid : Nat) (cidx : Int),
      ∀ e1, e1 ∈ r1 → ∀ e2, e2 ∈ r1 →
        entryMatches oid cidx e1 = true → entryMatches oid cidx e2 = true → e1 = e2 := by
    intro oid cidx e1 h1 e2 h2 hp1 hp2
    unfold entryMatches at hp1 hp2
    rw [Bool.and_eq_true, beq_iff_eq, beq_iff_eq] at hp1 hp2
    exact huniq e1 h1 e2 h2 (hp1.1.trans hp2.1.symm) (hp1.2.trans hp2.2.symm)
  constructor
  · cases hs : lookupSchema schemas key.owner with
    | none =>
        rw [getitemCol_schemaMiss schemas r1 key hs, getitemCol_schemaMiss schemas r2 key hs]
    | some inst =>
        cases hc : mappingLookup inst.column_mapping key with
        | none =>
            rw [getitemCol_mappingMiss schemas r1 key inst hs hc,
              getitemCol_mappingMiss schemas r2 key inst hs hc]
        | some cidx =>
            rw [getitemCol_resolved schemas r1 key inst cidx hs hc,
              getitemCol_resolved schemas r2 key inst cidx hs hc,
              scanColumns_eq_find, scanColumns_eq_find,
              find?_perm_of_uniq (entryMatches inst.oid cidx) r1 r2 hperm
                (hpu inst.oid cidx)]
  · intro inst cidx hs hc e hmem hpe v hv
    rw [getitemCol_resolved schemas r1 key inst cidx hs hc, scanColumns_eq_find]
    have hsome : (r1.find? (entryMatches inst.oid cidx)).isSome :=
      List.find?_isSome.mpr ⟨e, hmem, hpe⟩
    obtain ⟨e2, h2⟩ := Option.isSome_iff_exists.mp hsome
    have heq : e2 = e :=
      hpu inst.oid cidx e2 (List.mem_of_find?_eq_some h2) e hmem (List.find?_some h2) hpe
    rw [h2, heq]
    simp only [hv]

theorem rowData_length {V : Type} (row : Row V) : (rowData row).length = row.length :=
  List.length_map row (fun e => e.value)

theorem pyListIndex_eq_none_iff {α : Type} (xs : List α) (i : Int) :
    pyListIndex xs i = none ↔ ((xs.length : Int) ≤ i ∨ i < -(xs.length : Int)) := by
  unfold pyListIndex
  by_cases h : 0 ≤ i
  · rw [if_pos h, List.get?_eq_none]
    omega
  · rw [if_neg h]
    by_cases h2 : 0 ≤ (xs.length : Int) + i
    · rw [if_pos h2, List.get?_eq_none]
      omega
    · rw [if_neg h2]
      simp only [true_iff]
      omega

theorem pyListIndex_neg {α : Type} (xs : List α) (i : Int)
    (h1 : -(xs.length : Int) ≤ i) (h2 : i < 0) :
    pyListIndex xs i = xs.get? ((xs.length : Int) + i).toNat := by
  unfold pyListIndex
  rw [if_neg (by omega), if_pos (by omega)]

theorem getitemIdx_eq_error_iff {V : Type} (row : Row V) (i : Int) :
    getitemIdx row i = .error .indexOutOfBounds ↔ pyListIndex (rowData row) i = none := by
  unfold getitemIdx
  cases h : pyListIndex (rowData row) i <;> simp

theorem isKeyError_false_iff (e : LookupError) :
    e.isKeyError = false ↔ e = .indexOutOfBounds := by
  cases e <;> simp [LookupError.isKeyError]

/-- C10: raw-index lookups use Python list semantics: for a row of n values
and -n ≤ i ≤ -1, both the strict lookup and `get` return the value at
position n + i, and `IndexOutOfBounds` is raised exactly for i ≥ n or
i < -n. -/
theorem negative_raw_index_wraps {V : Type} (schemas : SchemaMapping)
    (row : Row V) (i : Int) :
    ((-(row.length : Int) ≤ i ∧ i < 0) →
      ∃ v, (rowData row).get? ((row.length : Int) + i).toNat = some v ∧
        getitemIdx row i = .ok v ∧
        EnhancedRow.get schemas row (.idx i) = .ok v) ∧
    (getitemIdx row i = .error .indexOutOfBounds ↔
      ((row.length : Int) ≤ i ∨ i < -(row.length : Int))) := by
  constructor
  · rintro ⟨h1, h2⟩
    have hlen : (rowData row).length = row.length := rowData_length row
    have hpy : pyListIndex (rowData row) i
        = (rowData row).get? ((row.length : Int) + i).toNat := by
      rw [pyListIndex_neg (rowData row) i (by omega) h2, hlen]
    have hj : ((row.length : Int) + i).toNat < (rowData row).length := by omega
    obtain ⟨v, hv⟩ : ∃ v, (rowData row).get? ((row.length : Int) + i).toNat = some v :=
      ⟨_, List.get?_eq_get hj⟩
    refine ⟨v, hv, ?_, ?_⟩
    · unfold getitemIdx
      rw [hpy, hv]
    · unfold EnhancedRow.get getitem getitemIdx
      simp only [hpy, hv]
  · rw [getitemIdx_eq_error_iff, pyListIndex_eq_none_iff, rowData_length]

/-- C5 (amended): `get` returns the absent result exactly when the strict
lookup either returns an absent raw value itself or raises any of the
`KeyError`s — `NullValue`, `ColumnNotInRow`, or a schema-map/column-mapping
miss — and it propagates exactly the non-`KeyError`, `IndexOutOfBounds`,
which is raised for every raw index outside the row's bounds. -/
theorem get_suppresses_exactly_keyerrors {V : Type} (schemas : SchemaMapping)
    (row : Row V) (k : RowKey) :
    (EnhancedRow.get schemas row k = .ok none ↔
      getitem schemas row k = .ok none ∨
        ∃ e, getitem schemas row k = .error e ∧ e.isKeyError = true) ∧
    (∀ e, EnhancedRow.get schemas row k = .error e ↔
      (e = .indexOutOfBounds ∧ getitem schemas row k = .error .indexOutOfBounds)) ∧
    (∀ n, (LookupError.nullValue n).isKeyError = true) ∧
    (∀ n, (LookupError.columnNotInRow n).isKeyError = true) ∧
    LookupError.indexOutOfBounds.isKeyError = false ∧
    (∀ i : Int, ((row.length : Int) ≤ i ∨ i < -(row.length : Int)) →
      EnhancedRow.get schemas row (.idx i) = .error .indexOutOfBounds) := by
  refine ⟨?_, ?_, fun n => rfl, fun n => rfl, rfl, ?_⟩
  · unfold EnhancedRow.get
    cases hg : getitem schemas row k with
    | ok v => simp [hg]
    | error e =>
        cases he : e.isKeyError with
        | true => simp [hg, he]
        | false =>
            rw [isKeyError_false_iff] at he
            subst he
            simp [hg, LookupError.isKeyError]
  · intro e
    unfold EnhancedRow.get
    cases hg : getitem schemas row k with
    | ok v => simp [hg]
    | error e2 =>
        cases he : e2.isKeyError with
        | true =>
            simp only [hg, he, if_pos rfl]
            constructor
            · intro h
              exact absurd h (by simp)
            · rintro ⟨h1, h2⟩
              simp only [Except.error.injEq] at h2
              rw [h2] at he
              exact absurd he (by simp [LookupError.isKeyError])
        | false =>
            rw [isKeyError_false_iff] at he
            subst he
            simp [hg, LookupError.isKeyError, eq_comm]
  · intro i hi
    have hnone : pyListIndex (rowData row) i = none := by
      rw [pyListIndex_eq_none_iff, rowData_length]
      exact hi
    unfold EnhancedRow.get getitem getitemIdx
    simp [hnone, LookupError.isKeyError]

/-- A fixture descriptor for a column of the table class tagged 1 (the
test-suite's example_table.field). -/
def exFieldCol : Column := { owner := 1, name := "field" }

/-- A fixture descriptor for example_table.id. -/
def exIdCol : Column := { owner := 1, name := "id" }

/-- A fixture row holding one non-NULL value for (table oid 100, ordinal 2). -/
def exRowNat : Row Nat :=
  [{ desc := { table_oid := 100, column_index := 2, label := "field" }, value := some 5 }]

/-- C5 counterexample: with the descriptor's table absent from the schema map
(a lenient-miss state), the strict lookup raises neither `NullValue` nor
`ColumnNotInRow` — it fails at the schema-map lookup — yet `get` returns the
absent result, refuting the claimed "exactly when". -/
theorem get_none_without_data_absence_error :
    EnhancedRow.get ([] : SchemaMapping) exRowNat (.col exFieldCol) = .ok none ∧
    getitem ([] : SchemaMapping) exRowNat (.col exFieldCol) = .error (.schemaMapMiss 1) ∧
    (∀ n, LookupError.schemaMapMiss 1 ≠ .nullValue n) ∧
    (∀ n, LookupError.schemaMapMiss 1 ≠ .columnNotInRow n) :=
  ⟨rfl, rfl, fun _ h => LookupError.noConfusion h, fun _ h => LookupError.noConfusion h⟩

/-- C7 (amended): a descriptor lookup whose owner table is absent from the
schema map fails at the schema-map resolution step — a condition distinct
from the data-absence errors `NullValue` and `ColumnNotInRow` — but the
exception raised is the same Python class (`KeyError`), so the suppressing
`get` absorbs it into an absent result instead of letting it surface. -/
theorem unreconciled_table_lookup {V : Type} (schemas : SchemaMapping)
    (row : Row V) (key : Column)
    (h : lookupSchema schemas key.owner = none) :
    getitemCol schemas row key = .error (.schemaMapMiss key.owner) ∧
    (∀ n, LookupError.schemaMapMiss key.owner ≠ .nullValue n) ∧
    (∀ n, LookupError.schemaMapMiss key.owner ≠ .columnNotInRow n) ∧
    (LookupError.schemaMapMiss key.owner).isKeyError = true ∧
    EnhancedRow.get schemas row (.col key) = .ok none := by
  have hbase := getitemCol_schemaMiss schemas row key h
  refine ⟨hbase, fun _ h2 => LookupError.noConfusion h2,
    fun _ h2 => LookupError.noConfusion h2, rfl, ?_⟩
  unfold EnhancedRow.get getitem
  simp [hbase, Except.map, LookupError.isKeyError]

/-- C7 witness: concrete unreconciled-table lookup, absorbed by get. -/
theorem unreconciled_table_lookup_witness :
    getitemCol ([] : SchemaMapping) exRowNat exFieldCol = .error (.schemaMapMiss 1) ∧
    EnhancedRow.get ([] : SchemaMapping) exRowNat (.col exFieldCol) = .ok none :=
  ⟨(unreconciled_table_lookup ([] : SchemaMapping) exRowNat exFieldCol rfl).1,
   (unreconciled_table_lookup ([] : SchemaMapping) exRowNat exFieldCol rfl).2.2.2.2⟩

/-- C7 counterexample: the claim says the unreconciled-table failure is not
silently absorbed by `get`; concretely, with an empty schema map, `get`
returns the absent result for a descriptor of the never-reconciled table. -/
theorem get_absorbs_unreconciled_table :
    lookupSchema ([] : SchemaMapping) exFieldCol.owner = none ∧
    EnhancedRow.get ([] : SchemaMapping) exRowNat (.col exFieldCol) = .ok none :=
  ⟨rfl, rfl⟩

/-- C9 (amended): binding a column on a non-TableSchema class raises
`TypeError`, and reading the owner of a never-bound column raises
`AttributeError`; but rebinding an already-bound column raises nothing —
`__set_name__` overwrites the owner unconditionally (keeping the
first-bound name). -/
theorem column_binding_lifecycle (c : ColumnState) (attr : String) :
    setName c .otherClass attr = .error .typeError ∧
    (c.owner = none → getOwner c = .error .attributeError) ∧
    (∀ t1 t2 : Nat, ∀ n1 n2 : String, ∀ c1,
      setName c (.tableClass t1) n1 = .ok c1 →
        ∃ c2, setName c1 (.tableClass t2) n2 = .ok c2 ∧ c2.owner = some t2) := by
  refine ⟨rfl, ?_, ?_⟩
  · intro h
    unfold getOwner
    simp [h]
  · intro t1 t2 n1 n2 c1 h1
    exact ⟨_, rfl, rfl⟩

/-- C9 counterexample: a concrete column, bound once to the class tagged 1,
is rebound to the class tagged 2 — the second `__set_name__` succeeds
instead of raising. -/
theorem rebinding_succeeds :
    setName { ctype := "INT4", owner := none, name := "" } (.tableClass 1) "id"
      = .ok { ctype := "INT4", owner := some 1, name := "id" } ∧
    setName { ctype := "INT4", owner := some 1, name := "id" } (.tableClass 2) "id2"
      = .ok { ctype := "INT4", owner := some 2, name := "id" } := by
  constructor
  · unfold setName
    simp
  · unfold setName
    simp

/-- A fixture reconciled schema: the class tagged 1 resolved to table oid
100, with id at ordinal 1 and field at ordinal 2. -/
def exInst : TableSchema := { oid := 100, column_mapping := [(exIdCol, 1), (exFieldCol, 2)] }

/-- A fixture schema map containing only `exInst`. -/
def exSchemas : SchemaMapping := [(1, exInst)]

/-- A fixture row whose single (oid 100, ordinal 2) entry is NULL. -/
def exRowNull : Row Nat :=
  [{ desc := { table_oid := 100, column_index := 2, label := "field" }, value := none }]

/-- C6 witness: the concrete NULL lookup raises NullValue. -/
theorem null_distinct_from_not_in_row_witness :
    getitemCol exSchemas exRowNull exFieldCol = .error (.nullValue "field") :=
  (null_distinct_from_not_in_row exSchemas exRowNull exFieldCol exInst 2
      (by decide) (by decide) (by decide)).1
    ⟨{ desc := { table_oid := 100, column_index := 2, label := "field" }, value := none },
      by decide, by decide, rfl⟩

/-- A fixture two-column row in declared order. -/
def exRow2 : Row Nat :=
  [{ desc := { table_oid := 100, column_index := 1, label := "id" }, value := some 7 },
   { desc := { table_oid := 100, column_index := 2, label := "field" }, value := some 9 }]

/-- `exRow2` with its columns selected in the reverse order. -/
def exRow2rev : Row Nat :=
  [{ desc := { table_oid := 100, column_index := 2, label := "field" }, value := some 9 },
   { desc := { table_oid := 100, column_index := 1, label := "id" }, value := some 7 }]

/-- C8 witness: on the concrete permuted rows, the field lookup agrees and
returns the value stored at (oid 100, ordinal 2). -/
theorem lookup_select_order_invariant_witness :
    getitemCol exSchemas exRow2 exFieldCol = getitemCol exSchemas exRow2rev exFieldCol ∧
    getitemCol exSchemas exRow2 exFieldCol = .ok 9 :=
  ⟨(lookup_select_order_invariant exSchemas exRow2 exRow2rev exFieldCol
      (by decide) (by decide)).1,
   (lookup_select_order_invariant exSchemas exRow2 exRow2rev exFieldCol
      (by decide) (by decide)).2 exInst 2 (by decide) (by decide)
      { desc := { table_oid := 100, column_index := 2, label := "field" }, value := some 9 }
      (by decide) (by decide) 9 rfl⟩

theorem backfillTask_error_iff (cat : Catalog) (strict : Bool)
    (t : TableSchemaType) (e : LoadError) :
    backfillTask cat strict t = .error e ↔ backfill_table_data cat strict t = .error e := by
  unfold backfillTask
  exact except_map_eq_error _ _ e

/-- C2: strict reconciliation maps every declared column or fails naming
every unmapped one: a strict backfill that returns a schema has assigned an
ordinal to every declared column of the table, and when declared columns are
left unmapped after the catalog rows are processed, the backfill fails with
the unmapped-columns error whose payload names every missing column. -/
theorem strict_maps_every_declared_column (cat : Catalog) (t : TableSchemaType) :
    (∀ s, backfill_table_data cat true t = .ok (some s) →
      ∀ c, c ∈ t.all_columns → (mappingLookup s.column_mapping c).isSome = true) ∧
    (∀ oid m, cat.relOid t.table_name = some oid →
      processColumnRows true t (cat.attributeRows oid) [] = .ok m →
      unmappedColumnsOf t m ≠ [] →
      backfill_table_data cat true t =
        .error (.unmappedColumns ((unmappedColumnsOf t m).map Column.name)) ∧
      (∀ c, c ∈ t.all_columns → mappingLookup m c = none →
        c.name ∈ (unmappedColumnsOf t m).map Column.name)) := by
  constructor
  · intro s hs c hc
    unfold backfill_table_data at hs
    cases hoid : cat.relOid t.table_name with
    | none => simp [hoid] at hs
    | some oid =>
        rw [hoid] at hs
        simp only at hs
        cases hproc : processColumnRows true t (cat.attributeRows oid) [] with
        | error e => simp [hproc] at hs
        | ok m =>
            simp only [hproc] at hs
            cases hemp : (unmappedColumnsOf t m).isEmpty with
            | false => simp [hemp] at hs
            | true =>
                rw [hemp] at hs
                simp only [Bool.not_true, Bool.and_false] at hs
                rw [if_neg (by simp)] at hs
                have h3 : { oid := oid, column_mapping := m } = s :=
                  Option.some.inj (Except.ok.inj hs)
                have hm : t.all_columns.filter (fun x => (mappingLookup m x).isNone) = [] :=
                  List.isEmpty_iff.mp hemp
                have hnone := List.filter_eq_nil_iff.mp hm c hc
                rw [← h3]
                cases hl : mappingLookup m c with
                | none => rw [hl] at hnone; simp at hnone
                | some v => rfl
  · intro oid m hoid hproc hne
    have hemp : (unmappedColumnsOf t m).isEmpty = false := by
      cases hemp : (unmappedColumnsOf t m).isEmpty with
      | false => rfl
      | true => exact absurd (List.isEmpty_iff.mp hemp) hne
    constructor
    · unfold backfill_table_data
      simp [hoid, hproc, hemp]
    · intro c hc hcnone
      have hmemf : c ∈ unmappedColumnsOf t m := by
        unfold unmappedColumnsOf
        rw [List.mem_filter]
        exact ⟨hc, by rw [hcnone]; rfl⟩
      exact List.mem_map.mpr ⟨c, hmemf, rfl⟩

/-- C1: any strict-policy reconciliation task failing makes the whole
schema-loading operation fail with one aggregate error that contains every
per-table failure that occurred; no schema map — in particular no partial
one — is produced. -/
theorem strict_batch_aggregates_failures (cat : Catalog)
    (tables : List TableSchemaType)
    (h : ∃ t, t ∈ tables ∧ ∃ e, backfill_table_data cat true t = .error e) :
    ∃ errs, create_table_schemas cat true tables = .error errs ∧ errs ≠ [] ∧
      (∀ t, t ∈ tables → ∀ e, backfill_table_data cat true t = .error e → e ∈ errs) ∧
      (∀ m, create_table_schemas cat true tables ≠ .ok m) := by
  obtain ⟨t0, hmem0, e0, he0⟩ := h
  have hmem_err : e0 ∈ errorsOf (tables.map (backfillTask cat true)) :=
    (mem_errorsOf _ _).mpr
      (List.mem_map.mpr ⟨t0, hmem0, (backfillTask_error_iff cat true t0 e0).mpr he0⟩)
  cases herrs : errorsOf (tables.map (backfillTask cat true)) with
  | nil => rw [herrs] at hmem_err; exact absurd hmem_err (List.not_mem_nil e0)
  | cons e1 rest =>
      have hcreate : create_table_schemas cat true tables = .error (e1 :: rest) := by
        unfold create_table_schemas map_as_completed
        simp only [herrs]
      refine ⟨e1 :: rest, hcreate, by simp, ?_, ?_⟩
      · intro t hmem e he
        have hmm : e ∈ errorsOf (tables.map (backfillTask cat true)) :=
          (mem_errorsOf _ _).mpr
            (List.mem_map.mpr ⟨t, hmem, (backfillTask_error_iff cat true t e).mpr he⟩)
        rwa [herrs] at hmm
      · intro m hm
        rw [hcreate] at hm
        exact Except.noConfusion hm

/-- C3: a declared table whose name the server catalog does not resolve
fails strict reconciliation with the unknown-table error; under lenient
policy its backfill yields no schema, the whole batch succeeds, and no entry
of the resulting schema map is keyed by that table's class. -/
theorem missing_table_policy (cat : Catalog) (tables : List TableSchemaType)
    (t : TableSchemaType)
    (hmem : t ∈ tables)
    (hmiss : cat.relOid t.table_name = none)
    (hid : ∀ u, u ∈ tables → u.id = t.id → u = t) :
    backfill_table_data cat true t = .error (.unknownTable t.table_name) ∧
    backfill_table_data cat false t = .ok none ∧
    ∃ m, create_table_schemas cat false tables = .ok m ∧
      ∀ p, p ∈ m → p.1 ≠ t.id := by
  have hstrict : backfill_table_data cat true t = .error (.unknownTable t.table_name) := by
    unfold backfill_table_data
    simp [hmiss]
  have hlen : backfill_table_data cat false t = .ok none := by
    unfold backfill_table_data
    simp [hmiss]
  have hallok : errorsOf (tables.map (backfillTask cat false)) = [] := by
    rw [errorsOf_eq_nil_iff]
    intro e he
    obtain ⟨u, _, hu⟩ := List.mem_map.mp he
    obtain ⟨r, hr⟩ := backfill_lenient_ok cat u
    rw [(backfillTask_error_iff cat false u e).mp hu] at hr
    exact Except.noConfusion hr
  refine ⟨hstrict, hlen,
    (oksOf (tables.map (backfillTask cat false))).filterMap id, ?_, ?_⟩
  · unfold create_table_schemas map_as_completed
    simp only [hallok]
  · intro p hp hpt
    obtain ⟨r, hr, hrp⟩ := List.mem_filterMap.mp hp
    have hrsome : r = some p := by simpa using hrp
    subst hrsome
    obtain ⟨u, humem, hu⟩ := List.mem_map.mp ((mem_oksOf _ _).mp hr)
    unfold backfillTask at hu
    rw [except_map_eq_ok] at hu
    obtain ⟨a, ha, hpa⟩ := hu
    cases a with
    | none => simp at hpa
    | some v =>
        simp at hpa
        have huid : u.id = t.id := by
          have : p.1 = u.id := by rw [hpa]
          rw [← this, hpt]
        have hut : u = t := hid u humem huid
        rw [hut, hlen] at ha
        simp at ha

/-- A fixture table class: the test-suite's ExampleTable (columns id and
field), tagged 1. -/
def exTable : TableSchemaType :=
  { id := 1, table_name := "example_table", all_columns := [exIdCol, exFieldCol] }

/-- A catalog with no tables at all (the missing-table scenario). -/
def catEmpty : Catalog := { relOid := fun _ => none, attributeRows := fun _ => [] }

/-- C1 witness: reconciling the example table against an empty catalog under
strict policy fails as an aggregate. -/
theorem strict_batch_aggregates_failures_witness :
    ∃ errs, create_table_schemas catEmpty true [exTable] = .error errs ∧ errs ≠ [] ∧
      (∀ t, t ∈ [exTable] → ∀ e, backfill_table_data catEmpty true t = .error e → e ∈ errs) ∧
      (∀ m, create_table_schemas catEmpty true [exTable] ≠ .ok m) :=
  strict_batch_aggregates_failures catEmpty [exTable]
    ⟨exTable, List.mem_singleton.mpr rfl, .unknownTable "example_table", rfl⟩

/-- C3 witness: the missing-table scenario, concretely. -/
theorem missing_table_policy_witness :
    backfill_table_data catEmpty true exTable = .error (.unknownTable "example_table") ∧
    backfill_table_data catEmpty false exTable = .ok none ∧
    ∃ m, create_table_schemas catEmpty false [exTable] = .ok m ∧
      ∀ p, p ∈ m → p.1 ≠ exTable.id :=
  missing_table_policy catEmpty [exTable] exTable
    (List.mem_singleton.mpr rfl) rfl (by decide)

/-- A catalog matching the test-suite scenario: example_table exists with
oid 100 and user columns id (attnum 1) and field (attnum 2). -/
def catFull : Catalog :=
  { relOid := fun s => if s = "example_table" then some 100 else none,
    attributeRows := fun oid =>
      if oid = 100 then
        [{ attname := "id", attnum := 1 }, { attname := "field", attnum := 2 }]
      else [] }

/-- Sanity: strict reconciliation of the full scenario succeeds and produces
exactly the expected schema map (so the strict success path of the claims is
not vacuous). -/
theorem catFull_strict_reconciliation :
    create_table_schemas catFull true [exTable] =
      .ok [(1, { oid := 100, column_mapping := [(exIdCol, 1), (exFieldCol, 2)] })] := rfl

/-- Sanity: the concrete accessor scenarios of the spec's test list — typed
lookups resolve the stored values, `get` absorbs a NULL into the absent
result, and out-of-bounds raw access propagates through `get`. -/
theorem scenario_lookup_checks :
    getitemCol exSchemas exRow2 exIdCol = .ok 7 ∧
    getitemCol exSchemas exRow2 exFieldCol = .ok 9 ∧
    EnhancedRow.get exSchemas exRowNull (.col exFieldCol) = .ok none ∧
    EnhancedRow.get exSchemas exRow2 (.idx 5) = .error .indexOutOfBounds :=
  ⟨rfl, rfl, rfl, rfl⟩

end Infipod
